import Mathlib

/-!
Verification of the workflow-graph library (`workflow_graph.py`, driven by
`example_usage.py`): a shallow embedding of the graph builder, the validator,
the compiled graph and the breadth-first execution engine, together with
theorems settling the specification claims.

Modelling conventions:
* Payloads and router tokens are dynamic Python values; they are embedded as
  the inductive `Value` (integers, booleans, strings).  Python booleans are
  integers (`True == 1`, `False == 0`), which `pyIntOf` makes explicit.
* A router returns either a single hashable token or a list of tokens
  (`Union[Hashable, list[Hashable]]`); that sum is `RouterResult`, and the
  engine's `isinstance(path_result, list)` test is the match on it.
* Python dicts are insertion-ordered association lists; Python sets are
  modelled as insertion-ordered lists without duplicates (no claim depends on
  the unspecified iteration order of a Python set).
* Actions take an optional callback used only for progress notification and
  may be coroutines; the engine invokes them identically either way, so an
  action is embedded as a pure `Value → Value`.
* Every `raise ValueError(...)` is embedded as `Except.error` with a
  constructor of `Err` identifying the message; each raise in the source
  happens before any mutation of the object, which the `Except`-returning
  embeddings reflect.
-/

namespace Wf

/-- Dynamic Python value: the payloads and router tokens the example exercises.
Python `bool` is a subtype of `int`; `pyIntOf` below encodes that. -/
inductive Value where
  | int : Int → Value
  | bool : Bool → Value
  | str : String → Value
deriving DecidableEq, Repr

/-- Result of a router call: `Union[Hashable, list[Hashable]]` from the source.
`multi` is the `isinstance(path_result, list)` case. -/
inductive RouterResult where
  | single : Value → RouterResult
  | multi : List Value → RouterResult

/-- The reserved entry sentinel: `START = "__start__"`. -/
def START : String := "__start__"

/-- The reserved terminal sentinel: `END = "__end__"`. -/
def END : String := "__end__"

/-- Every `ValueError` the library raises, one constructor per message shape.
The first five arise while building, the next five in `validate`, the last
during `execute`. -/
inductive Err where
  | reservedName : String → Err
  | nameConflict : String → Err
  | endAsSource : Err
  | startAsTarget : Err
  | duplicateBranch : String → String → Err
  | unknownSource : String → Err
  | unknownBranchTarget : String → String → String → Err
  | unreachableNode : String → Err
  | unknownTarget : String → Err
  | unknownInterrupt : String → Err
  | unknownNode : Value → Err
deriving DecidableEq, Repr

/-- `class NodeSpec(NamedTuple)`: the action plus optional metadata. -/
structure NodeSpec where
  action : Value → Value
  metadata : Option (List (String × Value))

/-- `class Branch(NamedTuple)`: router, optional destination map (`ends`),
optional always-after target (`then` in the source, a Lean keyword). -/
structure Branch where
  path : Value → RouterResult
  ends : Option (List (Value × String))
  thenTarget : Option String

/-- `class WorkflowGraph`: nodes dict, edges set, per-source branches dict,
compiled flag. -/
structure WorkflowGraph where
  nodes : List (String × NodeSpec)
  edges : List (String × String)
  branches : List (String × List (String × Branch))
  compiled : Bool

/-- `class CompiledGraph`: node table, adjacency lists, branch lists. -/
structure CompiledGraph where
  nodes : List (String × NodeSpec)
  edges : List (String × List String)
  branches : List (String × List Branch)
  compiled : Bool

/-- Ordered-dict lookup (first binding of the key). -/
def lookupA {α : Type} : List (String × α) → String → Option α
  | [], _ => none
  | (k, v) :: rest, key => if k = key then some v else lookupA rest key

/-- Dict lookup keyed by a dynamic value (for `branch.ends.get(dest, dest)`). -/
def lookupV : List (Value × String) → Value → Option String
  | [], _ => none
  | (k, v) :: rest, key => if k = key then some v else lookupV rest key

/-- Append a value to the list stored under a key, creating the key at the end
if absent (the `defaultdict(list)` append used by `attach_edge` and
`attach_branch`). -/
def appendAt {α : Type} : List (String × List α) → String → α → List (String × List α)
  | [], k, v => [(k, [v])]
  | (k', vs) :: rest, k, v =>
    if k' = k then (k', vs ++ [v]) :: rest else (k', vs) :: appendAt rest k v

/-- Python `bool` participates in arithmetic as `0`/`1`; strings do not. -/
def pyIntOf : Value → Option Int
  | .int n => some n
  | .bool b => some (if b then 1 else 0)
  | .str _ => none

/-- Python `f"{v}"` rendering for the values the example produces. -/
def pyStrOf : Value → String
  | .int n => toString n
  | .bool b => if b then "True" else "False"
  | .str s => s

/-- `add_node` with an explicit string name (first branch of the source):
reserved-name check, then duplicate check, then registration.  The
`action is None` argument check is outside the model because the embedding is
typed.  Both error cases return before the dict assignment, so a failing call
registers nothing. -/
def add_node (g : WorkflowGraph) (name : String) (action : Value → Value)
    (metadata : Option (List (String × Value))) : Except Err WorkflowGraph :=
  if name = START ∨ name = END then .error (.reservedName name)
  else if (lookupA g.nodes name).isSome then .error (.nameConflict name)
  else .ok { g with nodes := g.nodes ++ [(name, ⟨action, metadata⟩)] }

/-- `add_node` with a callable only (second branch of the source): the name is
the callable's `__name__`, passed explicitly here; the duplicate check precedes
the reserved-name check in this branch. -/
def add_node_from_action (g : WorkflowGraph) (name : String) (action : Value → Value)
    (metadata : Option (List (String × Value))) : Except Err WorkflowGraph :=
  if (lookupA g.nodes name).isSome then .error (.nameConflict name)
  else if name = START ∨ name = END then .error (.reservedName name)
  else .ok { g with nodes := g.nodes ++ [(name, ⟨action, metadata⟩)] }

/-- `add_edge`: reject `END` as source and `START` as destination, then add to
the edge set (set semantics: re-adding an existing pair is a no-op). -/
def add_edge (g : WorkflowGraph) (startKey endKey : String) : Except Err WorkflowGraph :=
  if startKey = END then .error .endAsSource
  else if endKey = START then .error .startAsTarget
  else .ok { g with
    edges := if (startKey, endKey) ∈ g.edges then g.edges else g.edges ++ [(startKey, endKey)] }

/-- The `path_map` argument of `add_conditional_edges`: an explicit dict, a
list of names, or absent.  (When absent the source additionally tries to seed
an identity map from a `Literal` return type hint of the router; that runtime
introspection is outside the model and no claim depends on it.) -/
inductive PathMap where
  | noMap : PathMap
  | dict : List (Value × String) → PathMap
  | names : List String → PathMap

/-- `{name: name for name in path_map}`: identity mapping over a list of
names, keeping the first occurrence of each name. -/
def identityMapOfNames (l : List String) : List (Value × String) :=
  l.foldl
    (fun acc n => if (lookupV acc (Value.str n)).isSome then acc else acc ++ [(Value.str n, n)])
    []

/-- Conversion of `path_map` into the stored `ends` field. -/
def toEnds : PathMap → Option (List (Value × String))
  | .noMap => none
  | .dict l => some l
  | .names l => some (identityMapOfNames l)

/-- `add_conditional_edges(source, path, path_map, then)`: the branch is named
after the router (`getattr(path, "__name__", "condition")`, passed explicitly
as `pathName`); a duplicate branch name for the source fails. -/
def add_conditional_edges (g : WorkflowGraph) (source : String) (pathName : String)
    (path : Value → RouterResult) (pm : PathMap) (thenTarget : Option String) :
    Except Err WorkflowGraph :=
  let existing := (lookupA g.branches source).getD []
  if (lookupA existing pathName).isSome then .error (.duplicateBranch source pathName)
  else .ok { g with branches := appendAt g.branches source (pathName, ⟨path, toEnds pm, thenTarget⟩) }

/-- `set_entry_point(key)` is `add_edge(START, key)`. -/
def set_entry_point (g : WorkflowGraph) (key : String) : Except Err WorkflowGraph :=
  add_edge g START key

/-- `set_conditional_entry_point` is `add_conditional_edges(START, ...)`. -/
def set_conditional_entry_point (g : WorkflowGraph) (pathName : String)
    (path : Value → RouterResult) (pm : PathMap) (thenTarget : Option String) :
    Except Err WorkflowGraph :=
  add_conditional_edges g START pathName path pm thenTarget

/-- `set_finish_point(key)` is `add_edge(key, END)`. -/
def set_finish_point (g : WorkflowGraph) (key : String) : Except Err WorkflowGraph :=
  add_edge g key END

/-- `name in self.nodes`. -/
def isNode (g : WorkflowGraph) (s : String) : Bool :=
  (lookupA g.nodes s).isSome

/-- Node names in declaration (dict insertion) order. -/
def nodeNames (g : WorkflowGraph) : List String :=
  g.nodes.map Prod.fst

/-- `node == branch.then` (comparison against an optional string). -/
def thenIs (b : Branch) (n : String) : Bool :=
  match b.thenTarget with
  | some t => n = t
  | none => false

/-- Sources contributed by one branch beyond its own source node (`validate`
lines: when the branch has a `then`, its mapped destinations, or, lacking a
map, every other node, must themselves appear as sources). -/
def branchSourceExtra (g : WorkflowGraph) (start : String) (b : Branch) : List String :=
  match b.thenTarget with
  | none => []
  | some _ =>
    match b.ends with
    | some es => (es.map Prod.snd).filter (fun e => e ≠ END)
    | none => (nodeNames g).filter (fun n => n ≠ start ∧ ¬ thenIs b n)

/-- The `all_sources` set computed by `validate`. -/
def allSources (g : WorkflowGraph) : List String :=
  g.edges.map Prod.fst ++
    (g.branches.map
      (fun p => p.1 :: (p.2.map (fun q => branchSourceExtra g p.1 q.2)).flatten)).flatten

/-- First unknown explicit branch destination, in branch/ends iteration order:
the offender of the `found unknown target` raise in `validate`. -/
def firstBadEnd (g : WorkflowGraph) : Option (String × String × String) :=
  g.branches.findSome? (fun p =>
    p.2.findSome? (fun q =>
      match q.2.ends with
      | some es =>
        ((es.map Prod.snd).find? (fun e => ¬ isNode g e ∧ e ≠ END)).map
          (fun e => (p.1, q.1, e))
      | none => none))

/-- Targets contributed by one branch: its `then`, plus its mapped
destinations, or — lacking a map — `END` and every other node. -/
def branchTargetsOf (g : WorkflowGraph) (start : String) (b : Branch) : List String :=
  (match b.thenTarget with | some t => [t] | none => []) ++
    (match b.ends with
     | some es => es.map Prod.snd
     | none => END :: (nodeNames g).filter (fun n => n ≠ start ∧ ¬ thenIs b n))

/-- The `all_targets` set computed by `validate` (complete only when no
unknown branch destination aborts its construction). -/
def allTargets (g : WorkflowGraph) : List String :=
  g.edges.map Prod.snd ++
    (g.branches.map
      (fun p => (p.2.map (fun q => branchTargetsOf g p.1 q.2)).flatten)).flatten

/-- The checks of `validate(interrupt)`, in source order: unknown sources,
unknown explicit branch destinations (raised while `all_targets` is being
collected), unreachable nodes, unknown targets, unknown interrupt names.
Every raise precedes the single mutation `self.compiled = True`. -/
def validateCheck (g : WorkflowGraph) (interrupt : List String) : Except Err Unit :=
  match (allSources g).find? (fun s => ¬ isNode g s ∧ s ≠ START) with
  | some s => .error (.unknownSource s)
  | none =>
    match firstBadEnd g with
    | some bad => .error (.unknownBranchTarget bad.1 bad.2.1 bad.2.2)
    | none =>
      match (nodeNames g).find? (fun n => ¬ (allTargets g).contains n) with
      | some n => .error (.unreachableNode n)
      | none =>
        match (allTargets g).find? (fun t => ¬ isNode g t ∧ t ≠ END) with
        | some t => .error (.unknownTarget t)
        | none =>
          match interrupt.find? (fun n => ¬ isNode g n) with
          | some n => .error (.unknownInterrupt n)
          | none => .ok ()

/-- `validate` as a state transformer: the outcome together with the model
afterwards.  All raises occur before the sole assignment
`self.compiled = True`, so a failing call returns the model unchanged. -/
def validateRun (g : WorkflowGraph) (interrupt : List String) :
    Except Err Unit × WorkflowGraph :=
  match validateCheck g interrupt with
  | .error e => (.error e, g)
  | .ok _ => (.ok (), { g with compiled := true })

/-- The `attach_*` loops of `compile`: copy nodes, build the per-source
adjacency lists from the edge set, group branches by source. -/
def buildCompiled (g : WorkflowGraph) : CompiledGraph :=
  { nodes := g.nodes
    edges := g.edges.foldl (fun adj p => appendAt adj p.1 p.2) []
    branches :=
      g.branches.foldl (fun acc p => p.2.foldl (fun acc q => appendAt acc p.1 q.2) acc) []
    compiled := true }

/-- `compile()`: validate (with no interrupts), then build the compiled
graph.  A validation error propagates and no compiled graph is produced. -/
def compile (g : WorkflowGraph) : Except Err CompiledGraph :=
  match validateCheck g [] with
  | .error e => .error e
  | .ok _ => .ok (buildCompiled g)

/-- `destinations = path_result if isinstance(path_result, list) else
[path_result]`. -/
def normalizeResult : RouterResult → List Value
  | .single t => [t]
  | .multi l => l

/-- `branch.ends.get(dest, dest)`: mapped tokens become node-name strings,
unmapped tokens pass through unchanged. -/
def translateTok (es : List (Value × String)) (d : Value) : Value :=
  match lookupV es d with
  | some s => Value.str s
  | none => d

/-- The destination tokens of one branch evaluation: normalize the router
result, then — only when `branch.ends` is truthy, i.e. present and non-empty —
translate each token through the map. -/
def resolveDests (b : Branch) (result : Value) : List Value :=
  let dests := normalizeResult (b.path result)
  match b.ends with
  | some es => if es.isEmpty then dests else dests.map (translateTok es)
  | none => dests

/-- Everything one branch evaluation enqueues: one `(destination, result)`
pair per resolved token in router order (the source's `dest == END` test
enqueues `(END, result)`, the very pair the general arm enqueues, so it is a
no-op), then — only when `branch.then` is truthy, i.e. present and non-empty —
the pair `(then, result)`. -/
def branchPairs (b : Branch) (result : Value) : List (Value × Value) :=
  let primary := (resolveDests b result).map (fun d => (d, result))
  match b.thenTarget with
  | some t => if t = "" then primary else primary ++ [(Value.str t, result)]
  | none => primary

/-- All pairs enqueued for a source's branches, in registration order. -/
def nodeBranchPairs (cg : CompiledGraph) (s : String) (result : Value) :
    List (Value × Value) :=
  (((lookupA cg.branches s).getD []).map (fun b => branchPairs b result)).flatten

/-- Pairs enqueued for a source's unconditional edges. -/
def edgePairs (cg : CompiledGraph) (s : String) (result : Value) :
    List (Value × Value) :=
  ((lookupA cg.edges s).getD []).map (fun t => (Value.str t, result))

/-- Onward routing from a processed name: branches take priority over edges;
`none` means neither exists, the terminal-node case. -/
def processNode (cg : CompiledGraph) (s : String) (result : Value) :
    Option (List (Value × Value)) :=
  if (lookupA cg.branches s).isSome then some (nodeBranchPairs cg s result)
  else if (lookupA cg.edges s).isSome then some (edgePairs cg s result)
  else none

/-- The `while queue` loop of `execute`, fuel-indexed (the source loop always
terminates; `none` means the fuel ran out first).  State: FIFO queue of
`(name, payload)` pairs, visited list, the payload of the last dequeued pair
(returned if the queue empties), and — an observer added for the proofs — the
names whose actions have been invoked, in invocation order. -/
def executeAux (cg : CompiledGraph) :
    Nat → List (Value × Value) → List Value → Value → List Value →
    Option (Except Err Value) × List Value
  | 0, _, _, _, acc => (none, acc)
  | _ + 1, [], _, last, acc => (some (.ok last), acc)
  | fuel + 1, (name, d) :: rest, visited, _, acc =>
    if name = Value.str END then (some (.ok d), acc)
    else if name ∈ visited then executeAux cg fuel rest visited d acc
    else
      match name with
      | Value.str s =>
        match lookupA cg.nodes s with
        | some spec =>
          match processNode cg s (spec.action d) with
          | some pairs =>
            executeAux cg fuel (rest ++ pairs) (Value.str s :: visited) d (acc ++ [Value.str s])
          | none => (some (.ok (spec.action d)), acc ++ [Value.str s])
        | none =>
          if s = START then
            match processNode cg s d with
            | some pairs => executeAux cg fuel (rest ++ pairs) (Value.str s :: visited) d acc
            | none => (some (.ok d), acc)
          else (some (.error (.unknownNode name)), acc)
      | _ => (some (.error (.unknownNode name)), acc)

/-- `execute(input_data)`: run the loop from `(START, input_data)`. -/
def execute (cg : CompiledGraph) (fuel : Nat) (input : Value) :
    Option (Except Err Value) :=
  (executeAux cg fuel [(Value.str START, input)] [] input []).1

/-- The action-invocation trace of a run. -/
def executeTrace (cg : CompiledGraph) (fuel : Nat) (input : Value) : List Value :=
  (executeAux cg fuel [(Value.str START, input)] [] input []).2

/-- `add` from `example_usage.py`: `data + 1`. -/
def addFn (v : Value) : Value :=
  match pyIntOf v with
  | some n => .int (n + 1)
  | none => v

/-- `is_even` from `example_usage.py`: `data % 2 == 0` (on a Python bool this
computes on `0`/`1`, so `is_even(True)` is `False` and `is_even(False)` is
`True`). -/
def isEvenFn (v : Value) : Value :=
  match pyIntOf v with
  | some n => .bool (n % 2 = 0)
  | none => v

/-- `is_even` used as the router of the conditional edge: it returns a single
(non-list) token. -/
def isEvenRouter (v : Value) : RouterResult :=
  .single (isEvenFn v)

/-- `handle_even`: `f"Even: {data}"`. -/
def handleEvenFn (v : Value) : Value :=
  .str ("Even: " ++ pyStrOf v)

/-- `handle_odd`: `f"Odd: {data}"`. -/
def handleOddFn (v : Value) : Value :=
  .str ("Odd: " ++ pyStrOf v)

/-- The empty `WorkflowGraph()`. -/
def emptyGraph : WorkflowGraph :=
  ⟨[], [], [], false⟩

/-- The parity scenario of `example_usage.py`, built through the builder
operations in source order. -/
def exampleGraphE : Except Err WorkflowGraph := do
  let g ← add_node emptyGraph "addition" addFn none
  let g ← add_node g "is_even_check" isEvenFn none
  let g ← add_node g "even_handler" handleEvenFn none
  let g ← add_node g "odd_handler" handleOddFn none
  let g ← set_entry_point g "addition"
  let g ← add_edge g "addition" "is_even_check"
  let g ← add_conditional_edges g "is_even_check" "is_even" isEvenRouter
    (PathMap.dict [(Value.bool true, "even_handler"), (Value.bool false, "odd_handler")]) none
  let g ← set_finish_point g "even_handler"
  set_finish_point g "odd_handler"

/-- The example graph itself (the build succeeds; see `c1_code_result`). -/
def exampleGraph : WorkflowGraph :=
  match exampleGraphE with
  | .ok g => g
  | .error _ => emptyGraph

/-- The compiled example graph. -/
def exampleCompiled : CompiledGraph :=
  match compile exampleGraph with
  | .ok c => c
  | .error _ => ⟨[], [], [], false⟩


/-! ## Spec-side definitions for the refinement claims -/

/-- Modelled from the spec: normalize the router result to a sequence of
destination tokens — a single token becomes a one-element sequence. -/
def specNormalize : RouterResult → List Value
  | .single t => [t]
  | .multi l => l

/-- Modelled from the spec: if the branch has an explicit destination map,
translate each token through it, unmapped tokens passing through unchanged. -/
def specTranslate (ends : Option (List (Value × String))) (t : Value) : Value :=
  match ends with
  | some es => translateTok es t
  | none => t

/-- Modelled from the spec: a destination of `END` is translated to the END
sentinel (which is the very same string, so this is the identity). -/
def specTranslateEnd (t : Value) : Value :=
  if t = Value.str END then Value.str END else t

/-- The extra pair a `then` target contributes, as the source computes it. -/
def thenExtra (b : Branch) (result : Value) : List (Value × Value) :=
  match b.thenTarget with
  | some t => if t = "" then [] else [(Value.str t, result)]
  | none => []

theorem normalizeResult_eq_spec (pr : RouterResult) :
    normalizeResult pr = specNormalize pr := by
  cases pr <;> rfl

theorem specTranslateEnd_eq_id (t : Value) : specTranslateEnd t = t := by
  unfold specTranslateEnd
  split
  next h => exact h.symm
  next => rfl

/-! ## Concrete graphs and branches used by witnesses and counterexamples -/

/-- A branch whose `then` is the empty string (legal through the public API:
`add_conditional_edges(src, path, path_map, then="")`). -/
def bEmptyThen : Branch :=
  ⟨fun _ => .single (Value.str "x"), none, some ""⟩

/-- A branch with an ordinary non-empty `then` target. -/
def bThenY : Branch :=
  ⟨fun _ => .single (Value.str "x"), none, some "y"⟩

/-- A single-node compiled graph whose node has no branches and no edges. -/
def soloCompiled : CompiledGraph :=
  ⟨[("solo", ⟨addFn, none⟩)], [], [], true⟩

/-- Two declared nodes, an entry edge to the first, nothing reaching the
second: node `b` is unreachable. -/
def unreachG : WorkflowGraph :=
  ⟨[("a", ⟨addFn, none⟩), ("b", ⟨addFn, none⟩)], [(START, "a")], [], false⟩

/-- One declared node and a branch whose explicit map targets the undeclared
name `ghost`; the branch has no `then` target. -/
def badEndG : WorkflowGraph :=
  ⟨[("a", ⟨addFn, none⟩)], [(START, "a")],
    [("a", [("cond", ⟨isEvenRouter, some [(Value.int 0, "ghost")], none⟩)])], false⟩

/-- Like `badEndG` but the branch carries `then = "b"` (with `b` declared), so
`validate` adds the unknown destination `ghost` to its source set. -/
def badEndThenG : WorkflowGraph :=
  ⟨[("a", ⟨addFn, none⟩), ("b", ⟨addFn, none⟩)], [(START, "a")],
    [("a", [("cond", ⟨isEvenRouter, some [(Value.int 0, "ghost")], some "b"⟩)])], false⟩

/-- A one-node graph used by the `add_node` witness. -/
def oneNodeG : WorkflowGraph :=
  ⟨[("a", ⟨addFn, none⟩)], [], [], false⟩

/-! ## Claims -/

/-- Claim C1: the spec scenario asserts that the parity graph of
`example_usage.py` returns "Even: 6" on input 5 and "Odd: 5" on input 4.  The
code disagrees: the example uses `is_even` both as the action of
`is_even_check` and as the branch router, so the router is applied to the
boolean the node just produced (`is_even(True)` is `False` because Python
booleans are integers), inverting the route, and the handlers receive the
boolean rather than the number.  This theorem evaluates the model at the
claimed inputs: input 5 yields "Odd: True" and input 4 yields "Even: False". -/
theorem c1_code_result :
    exampleGraphE = Except.ok exampleGraph ∧
    compile exampleGraph = Except.ok exampleCompiled ∧
    execute exampleCompiled 20 (Value.int 5) = some (Except.ok (Value.str "Odd: True")) ∧
    execute exampleCompiled 20 (Value.int 4) = some (Except.ok (Value.str "Even: False")) :=
  ⟨rfl, rfl, rfl, rfl⟩

/-- Claim C2: for every branch evaluation, the enqueued pairs are exactly one
`(destination, result)` pair per resolved token in router order — where the
resolved tokens are the normalized router result (a single token becoming a
one-element sequence), translated through the explicit destination map when
one is present (unmapped tokens passing through, `END` mapping to the END
sentinel) — followed by the branch's `then` contribution. -/
theorem c2_branch_resolution (b : Branch) (r : Value) :
    resolveDests b r =
      (specNormalize (b.path r)).map (fun t => specTranslateEnd (specTranslate b.ends t)) ∧
    branchPairs b r = (resolveDests b r).map (fun d => (d, r)) ++ thenExtra b r := by
  constructor
  · simp only [specTranslateEnd_eq_id]
    unfold resolveDests
    rw [normalizeResult_eq_spec]
    cases he : b.ends with
    | none => simp [specTranslate]
    | some es =>
      cases es with
      | nil => simp [specTranslate, translateTok, lookupV]
      | cons a tl => simp [specTranslate, List.isEmpty]
  · unfold branchPairs thenExtra
    cases b.thenTarget with
    | none => simp
    | some t =>
      by_cases ht : t = "" <;> simp [ht]


/-- Claim C3 counterexample: the claim says a branch with a `then` target
always gets `(then, result)` enqueued once after its primary destinations.
The engine guards the enqueue with Python truthiness (`if branch.then:`), so a
branch whose `then` is the empty string — accepted by `add_conditional_edges`
and legal in a validated graph once a node named "" is declared — has a `then`
target yet enqueues nothing for it. -/
theorem c3_counterexample :
    bEmptyThen.thenTarget = some "" ∧
    branchPairs bEmptyThen (Value.int 0) ≠
      (resolveDests bEmptyThen (Value.int 0)).map (fun d => (d, Value.int 0)) ++
        [(Value.str "", Value.int 0)] := by
  constructor
  · rfl
  · decide

/-- Claim C3 (amended): for every evaluation of a branch whose `then` target
is a non-empty string, the engine enqueues `(then, result)` exactly once,
after all of that branch's resolved primary destinations, unconditionally. -/
theorem c3_then_enqueued (b : Branch) (t : String) (r : Value)
    (hth : b.thenTarget = some t) (hne : t ≠ "") :
    branchPairs b r = (resolveDests b r).map (fun d => (d, r)) ++ [(Value.str t, r)] := by
  unfold branchPairs
  rw [hth]
  simp [hne]

/-- Claim C3 witness: the amended theorem at the concrete branch `bThenY`. -/
theorem c3_then_enqueued_witness :
    branchPairs bThenY (Value.int 7) =
      (resolveDests bThenY (Value.int 7)).map (fun d => (d, Value.int 7)) ++
        [(Value.str "y", Value.int 7)] :=
  c3_then_enqueued bThenY "y" (Value.int 7) rfl (by decide)

/-- Claim C10: a branch registered with an empty destination map — e.g.
`path_map` given as the empty list, which `add_conditional_edges` converts to
the empty identity mapping — behaves during execution exactly as a branch with
no destination map at all: the `if branch.ends:` truthiness test skips the
translation, so router tokens are used directly as destination names. -/
theorem c10_empty_path_map :
    toEnds (PathMap.names []) = some [] ∧
    ∀ (p : Value → RouterResult) (th : Option String) (r : Value),
      resolveDests ⟨p, some [], th⟩ r = resolveDests ⟨p, none, th⟩ r ∧
      branchPairs ⟨p, some [], th⟩ r = branchPairs ⟨p, none, th⟩ r := by
  refine ⟨rfl, fun p th r => ?_⟩
  have h : resolveDests ⟨p, some [], th⟩ r = resolveDests ⟨p, none, th⟩ r := by
    unfold resolveDests
    simp
  exact ⟨h, by unfold branchPairs; rw [h]⟩

/-- Claim C5: when the loop dequeues an unvisited declared node that has no
branches and no unconditional outgoing edges, it invokes the node's action and
returns the action's result immediately as the workflow result — no explicit
edge to `END` is needed, and whatever else sits in the queue is abandoned. -/
theorem c5_terminal_node (cg : CompiledGraph) (fuel : Nat) (s : String) (spec : NodeSpec)
    (d : Value) (rest : List (Value × Value)) (visited : List Value) (last : Value)
    (acc : List Value) (hEnd : s ≠ END) (hv : Value.str s ∉ visited)
    (hn : lookupA cg.nodes s = some spec)
    (hb : lookupA cg.branches s = none) (he : lookupA cg.edges s = none) :
    executeAux cg (fuel + 1) ((Value.str s, d) :: rest) visited last acc =
      (some (Except.ok (spec.action d)), acc ++ [Value.str s]) := by
  have h1 : ¬ (Value.str s = Value.str END) := by simpa using hEnd
  simp only [executeAux]
  rw [if_neg h1, if_neg hv, hn]
  simp [processNode, hb, he]

/-- Claim C5 witness: a compiled graph with the single node `solo` (no
branches, no edges) returns `add`'s result at once. -/
theorem c5_terminal_node_witness :
    lookupA soloCompiled.nodes "solo" = some ⟨addFn, none⟩ ∧
    executeAux soloCompiled 1 [(Value.str "solo", Value.int 1)] [] (Value.int 1) [] =
      (some (Except.ok (Value.int 2)), [Value.str "solo"]) :=
  ⟨rfl,
   c5_terminal_node soloCompiled 0 "solo" ⟨addFn, none⟩ (Value.int 1) [] [] (Value.int 1) []
     (by decide) (by simp) rfl rfl rfl⟩

/-- Claim C8: on a graph whose registry holds neither sentinel (which is every
graph reachable through the API, since `add_node` rejects them), adding a node
under an already-registered name fails with the name-conflict error regardless
of the action, adding a node named `START` or `END` fails with the
reserved-name error, and in both failing cases the call returns an error
before registering anything — through both entry modes of `add_node` (explicit
name, and name derived from the callable). -/
theorem c8_add_node_errors (g : WorkflowGraph) (name : String) (a : Value → Value)
    (m : Option (List (String × Value)))
    (hS : lookupA g.nodes START = none) (hE : lookupA g.nodes END = none) :
    ((name = START ∨ name = END) →
      add_node g name a m = Except.error (Err.reservedName name) ∧
      add_node_from_action g name a m = Except.error (Err.reservedName name)) ∧
    ((lookupA g.nodes name).isSome →
      add_node g name a m = Except.error (Err.nameConflict name) ∧
      add_node_from_action g name a m = Except.error (Err.nameConflict name)) := by
  constructor
  · intro hr
    have hlook : lookupA g.nodes name = none := by
      cases hr with
      | inl h => rw [h]; exact hS
      | inr h => rw [h]; exact hE
    cases hr with
    | inl h => subst h; simp [add_node, add_node_from_action, hlook]
    | inr h => subst h; simp [add_node, add_node_from_action, hlook]
  · intro hc
    have h1 : name ≠ START := by
      intro h
      rw [h, hS] at hc
      simp at hc
    have h2 : name ≠ END := by
      intro h
      rw [h, hE] at hc
      simp at hc
    simp [add_node, add_node_from_action, h1, h2, hc]

/-- Claim C8 witness: on a graph holding only node `a`, re-adding `a` gives
the name-conflict error and adding either sentinel gives the reserved-name
error. -/
theorem c8_add_node_errors_witness :
    add_node oneNodeG "a" addFn none = Except.error (Err.nameConflict "a") ∧
    add_node oneNodeG "__start__" addFn none = Except.error (Err.reservedName "__start__") ∧
    add_node_from_action oneNodeG "__end__" addFn none =
      Except.error (Err.reservedName "__end__") :=
  ⟨((c8_add_node_errors oneNodeG "a" addFn none rfl rfl).2 rfl).1,
   ((c8_add_node_errors oneNodeG "__start__" addFn none rfl rfl).1 (Or.inl rfl)).1,
   ((c8_add_node_errors oneNodeG "__end__" addFn none rfl rfl).1 (Or.inr rfl)).2⟩

/-- Claim C9: a successful `validate` changes exactly the `compiled` flag —
nodes, edges and branches are untouched — while a failing `validate` leaves
the model entirely unchanged (every raise precedes the sole assignment), and a
validation error makes `compile` propagate that error, so no compiled graph is
produced. -/
theorem c9_validate_frame (g : WorkflowGraph) (i : List String) :
    ((validateRun g i).1 = Except.ok () → (validateRun g i).2 = { g with compiled := true }) ∧
    (∀ e, (validateRun g i).1 = Except.error e → (validateRun g i).2 = g) ∧
    (∀ e, validateCheck g [] = Except.error e → compile g = Except.error e) := by
  refine ⟨?_, ?_, ?_⟩
  · intro h
    unfold validateRun at h ⊢
    cases hc : validateCheck g i with
    | error e => rw [hc] at h; exact absurd h (by simp)
    | ok u => rfl
  · intro e h
    unfold validateRun at h ⊢
    cases hc : validateCheck g i with
    | error e2 => rfl
    | ok u => rw [hc] at h; exact absurd h (by simp)
  · intro e h
    unfold compile
    rw [h]

/-- Claim C9 witness: the example graph validates (only `compiled` flips);
`unreachG` fails validation unchanged and `compile` propagates the error. -/
theorem c9_validate_frame_witness :
    (validateRun exampleGraph []).2 = { exampleGraph with compiled := true } ∧
    (validateRun unreachG []).2 = unreachG ∧
    compile unreachG = Except.error (Err.unreachableNode "b") :=
  ⟨(c9_validate_frame exampleGraph []).1 rfl,
   (c9_validate_frame unreachG []).2.1 (Err.unreachableNode "b") rfl,
   (c9_validate_frame unreachG []).2.2 (Err.unreachableNode "b") rfl⟩


theorem find_isSome_of_mem {α : Type} (l : List α) (p : α → Bool) (x : α)
    (hx : x ∈ l) (hp : p x = true) : ∃ y, l.find? p = some y := by
  induction l with
  | nil => cases hx
  | cons a t ih =>
    cases hpa : p a with
    | true => exact ⟨a, by simp [List.find?, hpa]⟩
    | false =>
      cases hx with
      | head =>
        rw [hpa] at hp
        simp at hp
      | tail _ hmem =>
        obtain ⟨y, hy⟩ := ih hmem
        exact ⟨y, by simp [List.find?, hpa, hy]⟩

/-- Claim C6: on a graph that passes the two checks `validate` runs first (no
unknown source, no unknown explicit branch destination), the presence of a
declared node that the collected target set misses — where a branch lacking an
explicit destination map contributes `END` and every other node as targets —
makes `validate`, and hence `compile`, fail with the unreachable-node error. -/
theorem c6_unreachable (g : WorkflowGraph) (i : List String) (n : String)
    (h1 : (allSources g).find? (fun s => ¬ isNode g s ∧ s ≠ START) = none)
    (h2 : firstBadEnd g = none)
    (h3 : n ∈ nodeNames g)
    (h4 : (allTargets g).contains n = false) :
    ∃ m, validateCheck g i = Except.error (Err.unreachableNode m) ∧
      compile g = Except.error (Err.unreachableNode m) := by
  obtain ⟨m, hm⟩ :=
    find_isSome_of_mem (nodeNames g) (fun n => ¬ (allTargets g).contains n) n h3
      (by simpa using h4)
  have key : ∀ j, validateCheck g j = Except.error (Err.unreachableNode m) := by
    intro j
    unfold validateCheck
    rw [h1, h2, hm]
  refine ⟨m, key i, ?_⟩
  unfold compile
  rw [key []]

/-- Claim C6 witness: in `unreachG`, node `b` has no incoming edge or branch,
and validation and compilation fail with the unreachable-node error. -/
theorem c6_unreachable_witness :
    ∃ m, validateCheck unreachG [] = Except.error (Err.unreachableNode m) ∧
      compile unreachG = Except.error (Err.unreachableNode m) :=
  c6_unreachable unreachG [] "b" rfl rfl (by decide) rfl

/-- Claim C7 counterexample: `badEndThenG` contains a conditional branch whose
explicit destination map references `ghost`, which is neither a declared node
nor `END` — yet `validate` does not fail with the unknown-branch-target error.
Because the branch carries a `then`, `validate` also places the branch's
mapped destinations into its source set, so the source check trips first with
the unknown-source error. -/
theorem c7_counterexample :
    firstBadEnd badEndThenG = some ("a", "cond", "ghost") ∧
    validateCheck badEndThenG [] = Except.error (Err.unknownSource "ghost") ∧
    validateCheck badEndThenG [] ≠
      Except.error (Err.unknownBranchTarget "a" "cond" "ghost") := by
  refine ⟨rfl, rfl, ?_⟩
  intro h
  rw [show validateCheck badEndThenG [] = Except.error (Err.unknownSource "ghost") from rfl]
    at h
  exact absurd h (by simp)

/-- Claim C7 (amended): a graph containing a conditional branch whose explicit
destination map references a name that is neither a declared node nor `END`
always fails validation; the error is the unknown-branch-target error naming
that branch provided the source check passes first — that is, provided the
unknown name is not also pulled into the source set (as an edge source, a
branch source, or a mapped destination of a branch that has a `then` target),
in which case the unknown-source error precedes it. -/
theorem c7_unknown_branch_target (g : WorkflowGraph) (i : List String) (st c e : String)
    (hbad : firstBadEnd g = some (st, c, e)) :
    (∃ err, validateCheck g i = Except.error err) ∧
    ((allSources g).find? (fun s => ¬ isNode g s ∧ s ≠ START) = none →
      validateCheck g i = Except.error (Err.unknownBranchTarget st c e) ∧
      compile g = Except.error (Err.unknownBranchTarget st c e)) := by
  have key : ∀ j, (allSources g).find? (fun s => ¬ isNode g s ∧ s ≠ START) = none →
      validateCheck g j = Except.error (Err.unknownBranchTarget st c e) := by
    intro j h1
    unfold validateCheck
    rw [h1, hbad]
  constructor
  · cases hs : (allSources g).find? (fun s => ¬ isNode g s ∧ s ≠ START) with
    | some s =>
      refine ⟨Err.unknownSource s, ?_⟩
      unfold validateCheck
      rw [hs]
    | none => exact ⟨Err.unknownBranchTarget st c e, key i hs⟩
  · intro h1
    refine ⟨key i h1, ?_⟩
    unfold compile
    rw [key [] h1]

/-- Claim C7 witness: in `badEndG` the offending branch has no `then`, the
source check passes, and validation and compilation fail with the
unknown-branch-target error naming the branch and the unknown name. -/
theorem c7_unknown_branch_target_witness :
    validateCheck badEndG [] = Except.error (Err.unknownBranchTarget "a" "cond" "ghost") ∧
    compile badEndG = Except.error (Err.unknownBranchTarget "a" "cond" "ghost") :=
  (c7_unknown_branch_target badEndG [] "a" "cond" "ghost" rfl).2 rfl

theorem nodup_concat_of_not_mem {l : List Value} {x : Value}
    (h1 : l.Nodup) (hx : x ∉ l) : (l ++ [x]).Nodup := by
  refine List.Nodup.append h1 (List.nodup_singleton x) ?_
  intro a ha hb
  rw [List.mem_singleton] at hb
  subst hb
  exact hx ha

theorem executeAux_trace_nodup (cg : CompiledGraph) :
    ∀ (fuel : Nat) (queue : List (Value × Value)) (visited : List Value)
      (last : Value) (acc : List Value),
      acc.Nodup → (∀ v ∈ acc, v ∈ visited) →
      ((executeAux cg fuel queue visited last acc).2).Nodup := by
  intro fuel
  induction fuel with
  | zero =>
    intro queue visited last acc h1 h2
    simpa [executeAux] using h1
  | succ fuel ih =>
    intro queue visited last acc h1 h2
    match queue with
    | [] => simpa [executeAux] using h1
    | (name, d) :: rest =>
      by_cases hEnd : name = Value.str END
      · simpa [executeAux, hEnd] using h1
      · by_cases hv : name ∈ visited
        · simpa [executeAux, hEnd, hv] using ih rest visited d acc h1 h2
        · have hna : name ∉ acc := fun hmem => hv (h2 name hmem)
          cases name with
          | str s =>
            cases hn : lookupA cg.nodes s with
            | some spec =>
              cases hp : processNode cg s (spec.action d) with
              | some pairs =>
                have h1x : (acc ++ [Value.str s]).Nodup := nodup_concat_of_not_mem h1 hna
                have h2x : ∀ v ∈ acc ++ [Value.str s], v ∈ Value.str s :: visited := by
                  intro v hvm
                  rcases List.mem_append.mp hvm with hmem | hmem
                  · exact List.mem_cons_of_mem _ (h2 v hmem)
                  · rw [List.mem_singleton] at hmem
                    subst hmem
                    exact List.mem_cons_self _ _
                simpa [executeAux, hEnd, hv, hn, hp] using
                  ih (rest ++ pairs) (Value.str s :: visited) d (acc ++ [Value.str s]) h1x h2x
              | none =>
                simpa [executeAux, hEnd, hv, hn, hp] using nodup_concat_of_not_mem h1 hna
            | none =>
              by_cases hs : s = START
              · subst hs
                cases hp : processNode cg START d with
                | some pairs =>
                  have h2x : ∀ v ∈ acc, v ∈ Value.str START :: visited :=
                    fun v hvm => List.mem_cons_of_mem _ (h2 v hvm)
                  simpa [executeAux, hEnd, hv, hn, hp] using
                    ih (rest ++ pairs) (Value.str START :: visited) d acc h1 h2x
                | none => simpa [executeAux, hEnd, hv, hn, hp] using h1
              · simpa [executeAux, hEnd, hv, hn, hs] using h1
          | int n => simpa [executeAux, hEnd, hv] using h1
          | bool b => simpa [executeAux, hEnd, hv] using h1

/-- Claim C4: a dequeued pair whose name is already in the visited set is
silently discarded — the loop moves on without invoking any action — and
consequently the action-invocation trace of a whole run never repeats a node
name: no declared node's action runs more than once per `execute` call. -/
theorem c4_no_reinvocation (cg : CompiledGraph) :
    (∀ (fuel : Nat) (name d : Value) (rest : List (Value × Value)) (visited : List Value)
        (last : Value) (acc : List Value),
      name ≠ Value.str END → name ∈ visited →
      executeAux cg (fuel + 1) ((name, d) :: rest) visited last acc =
        executeAux cg fuel rest visited d acc) ∧
    (∀ (fuel : Nat) (input : Value), (executeTrace cg fuel input).Nodup) := by
  constructor
  · intro fuel name d rest visited last acc hEnd hv
    simp [executeAux, hEnd, hv]
  · intro fuel input
    exact executeAux_trace_nodup cg fuel [(Value.str START, input)] [] input []
      List.nodup_nil (fun v hv => absurd hv (List.not_mem_nil v))

/-- Claim C4 witness: a visited pair is dropped without processing, and the
invocation trace of the example run on input 5 has no duplicates. -/
theorem c4_no_reinvocation_witness :
    executeAux exampleCompiled 3 [(Value.str "x", Value.int 0)] [Value.str "x"]
        (Value.int 0) [] =
      executeAux exampleCompiled 2 [] [Value.str "x"] (Value.int 0) [] ∧
    (executeTrace exampleCompiled 20 (Value.int 5)).Nodup :=
  ⟨(c4_no_reinvocation exampleCompiled).1 2 (Value.str "x") (Value.int 0) [] [Value.str "x"]
      (Value.int 0) [] (by decide) (by decide),
   (c4_no_reinvocation exampleCompiled).2 20 (Value.int 5)⟩

end Wf
